import Mathlib

/-!
Verification of the Marathon workflow orchestration core (Go sources):
a shallow embedding of the event-log store, engine, worker, in-memory
queue, SSE stream and future primitives, with theorems about the
properties the specification states for them.

Go dynamic values (`interface{}`) are modelled by `GoVal`; Go maps by
association lists with `lookupA`/`upsert`; `time.Time`/`time.Duration`
by `Int` nanoseconds; fallible calls by `Option`/`Except`.
-/

namespace Marathon

/-- Opaque dynamic value standing for a Go `interface{}` payload. -/
inductive GoVal where
  | vnil
  | vstr (s : String)
  | vint (n : Int)
  | vbool (b : Bool)
deriving DecidableEq, Repr

/-- Model of `state.WorkflowStatus` (state/state.go): the five status strings. -/
inductive WorkflowStatus where
  | pending
  | running
  | completed
  | failed
  | canceled
deriving DecidableEq, Repr

/-- Model of `WorkflowStatus.IsTerminal` (state/state.go): completed, failed or canceled. -/
def WorkflowStatus.isTerminal : WorkflowStatus → Bool
  | .completed => true
  | .failed => true
  | .canceled => true
  | _ => false

/-- Model of `state.EventType` (state/state.go): the closed set of event type strings. -/
inductive EventType where
  | workflowStarted
  | workflowCompleted
  | workflowFailed
  | workflowCanceled
  | activityScheduled
  | activityStarted
  | activityCompleted
  | activityFailed
  | activityRetrying
  | timerScheduled
  | timerFired
  | signalReceived
deriving DecidableEq, Repr

/-- Model of `state.Event` (state/state.go). `Timestamp` is `Int` nanoseconds,
`Data` is the `map[string]interface{}` payload as an association list. -/
structure Event where
  id : String
  workflowID : String
  type : EventType
  timestamp : Int
  sequenceNum : Int
  data : List (String × GoVal)
deriving DecidableEq, Repr

/-- Model of `state.WorkflowState` (state/state.go). -/
structure WorkflowState where
  workflowID : String
  workflowName : String
  status : WorkflowStatus
  input : GoVal
  output : GoVal
  error : String
  startTime : Int
  endTime : Option Int
  lastEventSeq : Int
  taskQueue : String
deriving DecidableEq, Repr

/-- Model of `WorkflowState.IsComplete` (state/state.go): delegates to `IsTerminal`. -/
def WorkflowState.isComplete (w : WorkflowState) : Bool :=
  w.status.isTerminal

/-- Model of `state.ActivityState` (state/state.go). -/
structure ActivityState where
  activityID : String
  activityName : String
  workflowID : String
  status : WorkflowStatus
  input : GoVal
  output : GoVal
  error : String
  startTime : Int
  endTime : Option Int
  attempt : Int
deriving DecidableEq, Repr

/-- Model of `state.TimerRecord` (store source): durable timer row. -/
structure TimerRecord where
  workflowID : String
  timerID : String
  fireAt : Int
  fired : Bool
deriving DecidableEq, Repr

/-! ### Association-list maps (Go `map[string]V`) -/

/-- Lookup in an association list, modelling Go map read. -/
def lookupA {β : Type} (k : String) : List (String × β) → Option β
  | [] => none
  | (k', v) :: rest => if k' = k then some v else lookupA k rest

/-- Insert-or-replace in an association list, modelling Go map write. -/
def upsert {β : Type} (k : String) (v : β) : List (String × β) → List (String × β)
  | [] => [(k, v)]
  | (k', v') :: rest => if k' = k then (k, v) :: rest else (k', v') :: upsert k v rest

theorem lookupA_upsert_self {β : Type} (k : String) (v : β) (l : List (String × β)) :
    lookupA k (upsert k v l) = some v := by
  induction l with
  | nil => simp [upsert, lookupA]
  | cons hd tl ih =>
      obtain ⟨k', v'⟩ := hd
      by_cases h : k' = k
      · simp [upsert, h, lookupA]
      · simp [upsert, h, lookupA, ih]

theorem lookupA_upsert_ne {β : Type} (k k' : String) (v : β) (l : List (String × β))
    (h : k' ≠ k) : lookupA k' (upsert k v l) = lookupA k' l := by
  induction l with
  | nil => simp [upsert, lookupA, Ne.symm h]
  | cons hd tl ih =>
      obtain ⟨k₀, v₀⟩ := hd
      by_cases h₀ : k₀ = k
      · subst h₀
        simp [upsert, lookupA, Ne.symm h]
      · simp [upsert, h₀, lookupA, ih]

/-! ### InMemoryStore (store source file, `package state`)

State of `InMemoryStore`: workflow states, per-workflow event lists,
activity states, idempotency key map and timer records. -/

structure Store where
  workflows : List (String × WorkflowState)
  events : List (String × List Event)
  activities : List (String × ActivityState)
  idemKeys : List (String × String)
  timers : List (String × List (String × TimerRecord))
deriving DecidableEq, Repr

/-- Model of `NewInMemoryStore`: all maps empty. -/
def emptyStore : Store :=
  { workflows := [], events := [], activities := [], idemKeys := [], timers := [] }

/-- Model of `InMemoryStore.SaveWorkflowState`: upsert the record by WorkflowID. -/
def saveWorkflowState (st : Store) (ws : WorkflowState) : Store :=
  { st with workflows := upsert ws.workflowID ws st.workflows }

/-- Model of `InMemoryStore.GetWorkflowState`: read by WorkflowID (`none` = not-found error). -/
def getWorkflowState (st : Store) (workflowID : String) : Option WorkflowState :=
  lookupA workflowID st.workflows

/-- Model of `InMemoryStore.GetEvents`: the event list for a workflow (missing key = empty). -/
def getEvents (st : Store) (workflowID : String) : List Event :=
  (lookupA workflowID st.events).getD []

/-- Model of `InMemoryStore.AppendEvent`: sets `SequenceNum = len(events)+1` on the
stored copy and appends it; returns the new store and the stored event
(the Go code also writes the sequence number back into the caller's event). -/
def appendEvent (st : Store) (e : Event) : Store × Event :=
  let events := getEvents st e.workflowID
  let stored := { e with sequenceNum := (events.length : Int) + 1 }
  ({ st with events := upsert e.workflowID (events ++ [stored]) st.events }, stored)

/-- Model of `InMemoryStore.GetEventsSince`: events with `SequenceNum > since`, in log order. -/
def getEventsSince (st : Store) (workflowID : String) (since : Int) : List Event :=
  (getEvents st workflowID).filter (fun e => since < e.sequenceNum)

/-- Model of `InMemoryStore.SaveActivityState`: upsert the record by ActivityID. -/
def saveActivityState (st : Store) (a : ActivityState) : Store :=
  { st with activities := upsert a.activityID a st.activities }

/-- Model of `InMemoryStore.GetActivityState`: read by ActivityID (`none` = not-found error). -/
def getActivityState (st : Store) (activityID : String) : Option ActivityState :=
  lookupA activityID st.activities

/-- Model of `InMemoryStore.MapIdempotencyKeyToWorkflow`: atomic create-if-absent;
returns (store, created, existing). -/
def mapIdempotencyKeyToWorkflow (st : Store) (key workflowID : String) :
    Store × Bool × String :=
  match lookupA key st.idemKeys with
  | some existing => (st, false, existing)
  | none => ({ st with idemKeys := upsert key workflowID st.idemKeys }, true, "")

/-- Model of `InMemoryStore.GetWorkflowIDByIdempotencyKey`. -/
def getWorkflowIDByIdempotencyKey (st : Store) (key : String) : Option String :=
  lookupA key st.idemKeys

/-! ### Event-sequence invariant (claim C1) -/

/-- The sequence numbers of an event list, in log order. -/
def seqNums (l : List Event) : List Int :=
  l.map (fun e => e.sequenceNum)

/-- The contiguous sequence 1, 2, ..., n. -/
def canonicalSeqs (n : Nat) : List Int :=
  (List.range n).map (fun (i : Nat) => (i : Int) + 1)

theorem canonicalSeqs_succ (n : Nat) :
    canonicalSeqs (n + 1) = canonicalSeqs n ++ [(n : Int) + 1] := by
  simp [canonicalSeqs, List.range_succ]

/-- Every workflow's event log carries exactly the sequence numbers 1..n. -/
def CanonicalLog (st : Store) : Prop :=
  ∀ wid : String, seqNums (getEvents st wid) = canonicalSeqs (getEvents st wid).length

theorem canonicalLog_empty : CanonicalLog emptyStore := by
  intro wid
  simp [emptyStore, getEvents, lookupA, seqNums, canonicalSeqs]

theorem getEvents_appendEvent_self (st : Store) (e : Event) :
    getEvents (appendEvent st e).1 e.workflowID
      = getEvents st e.workflowID
        ++ [{ e with sequenceNum := ((getEvents st e.workflowID).length : Int) + 1 }] := by
  simp [appendEvent, getEvents, lookupA_upsert_self]

theorem getEvents_appendEvent_ne (st : Store) (e : Event) (wid : String)
    (h : wid ≠ e.workflowID) :
    getEvents (appendEvent st e).1 wid = getEvents st wid := by
  simp [appendEvent, getEvents, lookupA_upsert_ne _ _ _ _ h]

theorem canonicalLog_appendEvent (st : Store) (e : Event) (h : CanonicalLog st) :
    CanonicalLog (appendEvent st e).1 := by
  intro wid
  by_cases hw : wid = e.workflowID
  · subst hw
    rw [getEvents_appendEvent_self]
    have hlen := h e.workflowID
    simp only [seqNums, List.map_append, List.length_append, List.map_cons, List.map_nil,
      List.length_cons, List.length_nil, Nat.zero_add]
    rw [canonicalSeqs_succ]
    simp only [seqNums] at hlen
    simp [hlen]
  · rw [getEvents_appendEvent_ne st e wid hw]
    exact h wid

/-- A finite sequence of `AppendEvent` calls, in order. -/
def appendEvents (st : Store) : List Event → Store
  | [] => st
  | e :: rest => appendEvents (appendEvent st e).1 rest

theorem canonicalLog_appendEvents (es : List Event) (st : Store) (h : CanonicalLog st) :
    CanonicalLog (appendEvents st es) := by
  induction es generalizing st with
  | nil => exact h
  | cons e rest ih => exact ih _ (canonicalLog_appendEvent st e h)

theorem canonicalSeqs_pairwise (n : Nat) : (canonicalSeqs n).Pairwise (· < ·) := by
  induction n with
  | zero => simp [canonicalSeqs]
  | succ m ih =>
      rw [canonicalSeqs_succ]
      refine List.pairwise_append.2 ⟨ih, List.pairwise_singleton _ _, ?_⟩
      intro a ha b hb
      rw [List.mem_singleton] at hb
      subst hb
      rw [canonicalSeqs, List.mem_map] at ha
      obtain ⟨i, hi, hia⟩ := ha
      rw [List.mem_range] at hi
      omega

/-- C1: for every workflow ID, after any finite sequence of successful
`AppendEvent` calls (serialized, starting from the fresh store), the stored
events' `SequenceNum` values form exactly the contiguous sequence
1, 2, ..., n — hence strictly increasing with no duplicates — and each
individual `AppendEvent` assigns exactly the next sequence number,
appending its event at the end of that workflow's log. -/
theorem appendEvent_sequence_canonical :
    (∀ (es : List Event) (wid : String),
        seqNums (getEvents (appendEvents emptyStore es) wid)
          = canonicalSeqs (getEvents (appendEvents emptyStore es) wid).length
        ∧ (seqNums (getEvents (appendEvents emptyStore es) wid)).Pairwise (· < ·))
    ∧ (∀ (st : Store) (e : Event),
        (appendEvent st e).2.sequenceNum = ((getEvents st e.workflowID).length : Int) + 1
        ∧ getEvents (appendEvent st e).1 e.workflowID
            = getEvents st e.workflowID ++ [(appendEvent st e).2]) := by
  constructor
  · intro es wid
    have hc := canonicalLog_appendEvents es emptyStore canonicalLog_empty wid
    exact ⟨hc, hc ▸ canonicalSeqs_pairwise _⟩
  · intro st e
    exact ⟨rfl, getEvents_appendEvent_self st e⟩

/-! ### Claim C5: AppendEvent vs LastEventSeq -/

def c5WorkflowState : WorkflowState :=
  { workflowID := "wf-1", workflowName := "demo", status := .running,
    input := .vnil, output := .vnil, error := "", startTime := 0,
    endTime := none, lastEventSeq := 0, taskQueue := "default" }

def c5Event : Event :=
  { id := "e1", workflowID := "wf-1", type := .signalReceived, timestamp := 1,
    sequenceNum := 0, data := [] }

/-- C5 counterexample: a concrete store holding workflow "wf-1" with
`LastEventSeq = 0`; `AppendEvent` assigns sequence number 1 to the stored
event, yet `GetWorkflowState` still reports `LastEventSeq = 0` afterwards —
`AppendEvent` does not update the owning workflow state's `LastEventSeq`. -/
theorem appendEvent_lastEventSeq_counterexample :
    ((appendEvent (saveWorkflowState emptyStore c5WorkflowState) c5Event).2.sequenceNum = 1)
    ∧ ((getWorkflowState
          (appendEvent (saveWorkflowState emptyStore c5WorkflowState) c5Event).1 "wf-1").map
        (fun ws => ws.lastEventSeq) = some 0) := by
  decide

/-- C5 amended: a successful `AppendEvent` assigns the next sequence number
(`len+1`) to the stored event, but leaves every workflow state record
unchanged; in particular `GetWorkflowState` returns the same record (with
the same `LastEventSeq`) before and after the append. -/
theorem appendEvent_does_not_touch_workflowState (st : Store) (e : Event) (wid : String) :
    (appendEvent st e).2.sequenceNum = ((getEvents st e.workflowID).length : Int) + 1
    ∧ getWorkflowState (appendEvent st e).1 wid = getWorkflowState st wid := by
  exact ⟨rfl, rfl⟩

/-! ### Engine (engine/engine.go)

IDs and timestamps that Go derives from the wall clock
(`generateWorkflowID`, `NewEvent`, `time.Now`) are parameters here. -/

/-- Model of `workflow.Options` (the part the engine reads). -/
structure WorkflowOptions where
  taskQueue : String
  executionTimeout : Int
deriving DecidableEq, Repr

/-- Model of `workflow.Definition` as the engine sees it; the workflow program
`Execute` itself is modelled by its result where needed (claim C4). -/
structure WorkflowDefinition where
  name : String
  options : WorkflowOptions
deriving DecidableEq, Repr

/-- Model of `workflow.Registry`: name → definition. -/
def WorkflowRegistry : Type := List (String × WorkflowDefinition)

/-- Model of `Engine.StartWorkflowWithOptions` (engine/engine.go): resolve the
definition, generate `newID`, consult the idempotency map if a key is set
(returning the existing WorkflowID without persisting anything when the key
was already mapped), then persist the Pending state and the
`workflow_started` event. The asynchronous driver is modelled separately
(`driverBegin`/`driverFinish`). -/
def startWorkflowWithOptions (reg : WorkflowRegistry) (st : Store)
    (workflowName : String) (input : GoVal) (idempotencyKey : String)
    (newID : String) (now : Int) (eventID : String) :
    Store × Except String String :=
  match lookupA workflowName reg with
  | none => (st, .error "workflow not found")
  | some wdef =>
    let workflowID := newID
    let afterIdem : Store × Option String :=
      if idempotencyKey ≠ "" then
        let r := mapIdempotencyKeyToWorkflow st idempotencyKey workflowID
        if r.2.1 = false then (r.1, some r.2.2) else (r.1, none)
      else (st, none)
    match afterIdem with
    | (st', some existing) => (st', .ok existing)
    | (st', none) =>
      let workflowState : WorkflowState :=
        { workflowID := workflowID, workflowName := workflowName,
          status := .pending, input := input, output := .vnil, error := "",
          startTime := now, endTime := none, lastEventSeq := 0,
          taskQueue := wdef.options.taskQueue }
      let st1 := saveWorkflowState st' workflowState
      let startedEvent : Event :=
        { id := eventID, workflowID := workflowID, type := .workflowStarted,
          timestamp := now, sequenceNum := 0,
          data := [("workflow_name", .vstr workflowName), ("input", input),
                   ("task_queue", .vstr wdef.options.taskQueue)] }
      let st2 := (appendEvent st1 startedEvent).1
      (st2, .ok workflowID)

/-- One `StartWorkflowWithOptions` call's caller-supplied data. -/
structure StartOp where
  name : String
  input : GoVal
  idempotencyKey : String
  newID : String
  now : Int
  eventID : String
deriving DecidableEq, Repr

/-- A finite sequence of `StartWorkflowWithOptions` calls, in order. -/
def runStarts (reg : WorkflowRegistry) (st : Store) : List StartOp → Store
  | [] => st
  | op :: rest =>
      runStarts reg
        (startWorkflowWithOptions reg st op.name op.input op.idempotencyKey
          op.newID op.now op.eventID).1 rest

/-- Model of `Engine.CancelWorkflow` (engine/engine.go): error when not found or
already terminal; otherwise save Canceled with EndTime and append
`workflow_canceled`. -/
def cancelWorkflow (st : Store) (workflowID : String) (now : Int) (eventID : String) :
    Store × Except String Unit :=
  match getWorkflowState st workflowID with
  | none => (st, .error "workflow not found")
  | some ws =>
    if ws.isComplete then (st, .error "workflow already completed")
    else
      let ws' := { ws with status := .canceled, endTime := some now }
      let st1 := saveWorkflowState st ws'
      let canceledEvent : Event :=
        { id := eventID, workflowID := workflowID, type := .workflowCanceled,
          timestamp := now, sequenceNum := 0, data := [] }
      ((appendEvent st1 canceledEvent).1, .ok ())

/-- First half of `Engine.executeWorkflow` (engine/engine.go), up to the
call of `def.Workflow.Execute`: after the grace sleep, read the state;
return (driver exits, `none`) if already Canceled; otherwise transition to
Running if needed. The returned snapshot is the local `workflowState`
variable the driver keeps across `Execute`. -/
def driverBegin (st : Store) (workflowID : String) : Store × Option WorkflowState :=
  match getWorkflowState st workflowID with
  | none => (st, none)
  | some ws =>
    if ws.status = .canceled then (st, none)
    else if ws.status ≠ .running then
      let ws' := { ws with status := .running }
      (saveWorkflowState st ws', some ws')
    else (st, some ws)

/-- Second half of `Engine.executeWorkflow`: after `Execute` returns, set
EndTime on the driver's (possibly stale) snapshot, append
`workflow_completed` or `workflow_failed`, and save the snapshot as the
final workflow state — without re-reading the store. -/
def driverFinish (st : Store) (snapshot : WorkflowState)
    (result : Except String GoVal) (now : Int) (eventID : String) : Store :=
  let ws := { snapshot with endTime := some now }
  match result with
  | .error msg =>
      let ws' := { ws with status := .failed, error := msg }
      let ev : Event :=
        { id := eventID, workflowID := snapshot.workflowID, type := .workflowFailed,
          timestamp := now, sequenceNum := 0, data := [("error", .vstr msg)] }
      saveWorkflowState (appendEvent st ev).1 ws'
  | .ok output =>
      let ws' := { ws with status := .completed, output := output }
      let ev : Event :=
        { id := eventID, workflowID := snapshot.workflowID, type := .workflowCompleted,
          timestamp := now, sequenceNum := 0, data := [("output", output)] }
      saveWorkflowState (appendEvent st ev).1 ws'

/-! ### Claim C2: idempotent start -/

theorem idemKeys_start_preserved (reg : WorkflowRegistry) (st : Store)
    (name : String) (input : GoVal) (key' newID : String) (now : Int) (eid : String)
    (key w : String) (h : lookupA key st.idemKeys = some w) :
    lookupA key (startWorkflowWithOptions reg st name input key' newID now eid).1.idemKeys
      = some w := by
  unfold startWorkflowWithOptions
  cases hreg : lookupA name reg with
  | none => simpa using h
  | some wdef =>
      by_cases hk : key' = ""
      · subst hk
        simp [mapIdempotencyKeyToWorkflow, saveWorkflowState, appendEvent, h]
      · by_cases hmap : key' = key
        · subst hmap
          simp [mapIdempotencyKeyToWorkflow, h, hk]
        · cases hx : lookupA key' st.idemKeys with
          | some e => simp [mapIdempotencyKeyToWorkflow, hx, hk, h]
          | none =>
              simp only [mapIdempotencyKeyToWorkflow, hx, hk, saveWorkflowState, appendEvent]
              simp [hk, lookupA_upsert_ne _ _ _ _ (Ne.symm hmap), h]

theorem idemKeys_runStarts_preserved (reg : WorkflowRegistry) (st : Store)
    (ops : List StartOp) (key w : String) (h : lookupA key st.idemKeys = some w) :
    lookupA key (runStarts reg st ops).idemKeys = some w := by
  induction ops generalizing st with
  | nil => exact h
  | cons op rest ih =>
      exact ih _ (idemKeys_start_preserved reg st op.name op.input op.idempotencyKey
        op.newID op.now op.eventID key w h)

/-- C2: `StartWorkflowWithOptions` with a non-empty, already-mapped
idempotency key returns the previously mapped WorkflowID and leaves the
store untouched (no new workflow state, no new events); with an unmapped
key, `MapIdempotencyKeyToWorkflow` creates the mapping atomically and
returns (created = true, existing = ""); and across any further sequence of
start calls an existing mapping for a key never changes, so at most one
WorkflowID is ever mapped to it. -/
theorem startWorkflow_idempotency :
    (∀ (reg : WorkflowRegistry) (st : Store) (name : String) (input : GoVal)
        (key newID : String) (now : Int) (eid : String)
        (wdef : WorkflowDefinition) (existing : String),
        lookupA name reg = some wdef →
        key ≠ "" →
        lookupA key st.idemKeys = some existing →
        startWorkflowWithOptions reg st name input key newID now eid = (st, .ok existing))
    ∧ (∀ (st : Store) (key wid : String),
        lookupA key st.idemKeys = none →
        mapIdempotencyKeyToWorkflow st key wid
          = ({ st with idemKeys := upsert key wid st.idemKeys }, true, "")
        ∧ lookupA key (mapIdempotencyKeyToWorkflow st key wid).1.idemKeys = some wid)
    ∧ (∀ (reg : WorkflowRegistry) (st : Store) (ops : List StartOp) (key w : String),
        lookupA key st.idemKeys = some w →
        lookupA key (runStarts reg st ops).idemKeys = some w) := by
  refine ⟨?_, ?_, idemKeys_runStarts_preserved⟩
  · intro reg st name input key newID now eid wdef existing hreg hk hx
    unfold startWorkflowWithOptions
    simp [hreg, hk, mapIdempotencyKeyToWorkflow, hx]
  · intro st key wid h
    constructor
    · simp [mapIdempotencyKeyToWorkflow, h]
    · simp [mapIdempotencyKeyToWorkflow, h, lookupA_upsert_self]

def c2Definition : WorkflowDefinition :=
  { name := "echo", options := { taskQueue := "default", executionTimeout := 0 } }

def c2Reg : WorkflowRegistry := [("echo", c2Definition)]

def c2Store : Store := { emptyStore with idemKeys := [("K", "wf-1")] }

/-- Witness for C2 at concrete inputs: key "K" already maps to "wf-1", so a
second start returns "wf-1" and the store is unchanged. -/
theorem startWorkflow_idempotency_witness :
    startWorkflowWithOptions c2Reg c2Store "echo" (.vstr "hi") "K" "wf-2" 0 "e1"
      = (c2Store, .ok "wf-1") := by
  exact startWorkflow_idempotency.1 c2Reg c2Store "echo" (.vstr "hi") "K" "wf-2" 0 "e1"
    c2Definition "wf-1" (by decide) (by decide) (by decide)

/-! ### Claim C4: terminal status immutability after cancel -/

def c4Reg : WorkflowRegistry :=
  [("test-workflow",
    { name := "test-workflow", options := { taskQueue := "default", executionTimeout := 0 } })]

/-- Store after `StartWorkflow`: Pending state + `workflow_started` event. -/
def c4Store0 : Store :=
  (startWorkflowWithOptions c4Reg emptyStore "test-workflow" (.vstr "in") "" "wf-1" 0 "e1").1

/-- The driver passes its pre-execution check and keeps a Running snapshot. -/
def c4Begin : Store × Option WorkflowState := driverBegin c4Store0 "wf-1"

def c4Snapshot : WorkflowState :=
  c4Begin.2.getD
    { workflowID := "", workflowName := "", status := .pending, input := .vnil,
      output := .vnil, error := "", startTime := 0, endTime := none,
      lastEventSeq := 0, taskQueue := "" }

/-- Store after `CancelWorkflow` succeeded mid-execution. -/
def c4AfterCancel : Store := (cancelWorkflow c4Begin.1 "wf-1" 5 "e2").1

/-- Store after the driver's workflow program returned successfully. -/
def c4Final : Store := driverFinish c4AfterCancel c4Snapshot (.ok (.vstr "out")) 9 "e3"

/-- C4 evaluated at the failing trace: start a workflow, let the driver
transition it to Running, cancel it successfully (status Canceled,
`workflow_canceled` appended), then let the driver's `Execute` return: the
driver unconditionally appends `workflow_completed` and overwrites the
stored status with Completed, so the terminal status Canceled does not
persist and a terminal event is appended after cancellation — contradicting
the stated invariant. -/
theorem cancel_overwritten_by_driver_trace :
    (cancelWorkflow c4Begin.1 "wf-1" 5 "e2").2 = .ok ()
    ∧ (getWorkflowState c4AfterCancel "wf-1").map (fun ws => ws.status)
        = some .canceled
    ∧ (getWorkflowState c4Final "wf-1").map (fun ws => ws.status)
        = some .completed
    ∧ (getEvents c4Final "wf-1").map (fun e => e.type)
        = [.workflowStarted, .workflowCanceled, .workflowCompleted] := by
  refine ⟨rfl, ?_, ?_, ?_⟩ <;> decide

/-! ### Activity registry (activity/activity.go) and queue tasks (queue source) -/

/-- Model of `activity.RetryPolicy`; durations in `Int` nanoseconds. The float
`BackoffCoefficient` is irrelevant to the claims and carried as a pair of
integers would add nothing, so it is omitted. -/
structure RetryPolicy where
  maxAttempts : Int
  initialInterval : Int
  maxInterval : Int
  nonRetryableErrors : List String
deriving DecidableEq, Repr

/-- Model of `activity.DefaultRetryPolicy`. -/
def defaultRetryPolicy : RetryPolicy :=
  { maxAttempts := 3, initialInterval := 1000000000,
    maxInterval := 60000000000, nonRetryableErrors := [] }

/-- Model of `activity.Info`. -/
structure ActivityInfo where
  name : String
  description : String
  timeout : Int
  retryPolicy : Option RetryPolicy
deriving DecidableEq, Repr

/-- Model of `queue.TaskType`. -/
inductive TaskType where
  | activity
  | workflow
deriving DecidableEq, Repr

/-- Model of `queue.Task`. -/
structure Task where
  id : String
  type : TaskType
  workflowID : String
  activityID : String
  activityName : String
  input : GoVal
  attempts : Int
deriving DecidableEq, Repr

/-- Model of `queue.TaskResult` (the fields the worker fills). -/
structure TaskResult where
  taskID : String
  workflowID : String
  activityID : String
  success : Bool
  output : GoVal
  error : String
deriving DecidableEq, Repr

/-! ### Worker (worker source file)

`registry.Get` is an association-list lookup; the registered activity's
`Execute` is modelled by its result on the given input
(`GoVal → Except String GoVal`): timeouts and the cancel watcher only
influence which result `Execute` produces. -/

/-- A registered activity: metadata plus the modelled `Execute`. -/
structure RegisteredActivity where
  info : ActivityInfo
  exec : GoVal → Except String GoVal

/-- Model of `activity.Registry`: name → registered activity. -/
def ActivityRegistry : Type := List (String × RegisteredActivity)

/-- The zero-valued `TaskResult` the worker initializes from the task. -/
def initialResult (task : Task) : TaskResult :=
  { taskID := task.id, workflowID := task.workflowID,
    activityID := task.activityID, success := false,
    output := .vnil, error := "" }

/-- The execute/record phase of `Worker.executeActivity` after the
idempotency check: run the activity, set EndTime, then either record
`activity_failed` with the attempt number, or mark Completed and record
`activity_completed` once (skipped if the record was already Completed). -/
def runActivityAttempt (reg : RegisteredActivity) (st : Store) (task : Task)
    (activityState : ActivityState) (now : Int) (eventID : String) :
    Store × TaskResult :=
  let as1 := { activityState with endTime := some now }
  match reg.exec task.input with
  | .error msg =>
      let as2 := { as1 with status := .failed, error := msg }
      let ev : Event :=
        { id := eventID, workflowID := task.workflowID, type := .activityFailed,
          timestamp := now, sequenceNum := 0,
          data := [("activity_id", .vstr task.activityID), ("error", .vstr msg),
                   ("attempt", .vint task.attempts)] }
      (saveActivityState (appendEvent st ev).1 as2,
        { initialResult task with success := false, error := msg })
  | .ok output =>
      if as1.status ≠ .completed then
        let as2 := { as1 with status := .completed, output := output }
        let ev : Event :=
          { id := eventID, workflowID := task.workflowID, type := .activityCompleted,
            timestamp := now, sequenceNum := 0,
            data := [("activity_id", .vstr task.activityID), ("output", output)] }
        (saveActivityState (appendEvent st ev).1 as2,
          { initialResult task with success := true, output := output })
      else
        (saveActivityState st as1,
          { initialResult task with success := true, output := output })

/-- Model of `Worker.executeActivity` (worker source): registry lookup, idempotency
check against the stored Activity State (a Completed record short-circuits
with the cached output and no writes), `activity_started` exactly once for
a fresh record, then the execute/record phase. -/
def executeActivity (areg : ActivityRegistry) (st : Store) (task : Task)
    (now : Int) (startedEventID attemptEventID : String) : Store × TaskResult :=
  match lookupA task.activityName areg with
  | none => (st, { initialResult task with error := "activity not found" })
  | some reg =>
    match getActivityState st task.activityID with
    | some existing =>
        if existing.status = .completed then
          (st, { initialResult task with success := true, output := existing.output })
        else
          runActivityAttempt reg st task existing now attemptEventID
    | none =>
        let activityState : ActivityState :=
          { activityID := task.activityID, activityName := task.activityName,
            workflowID := task.workflowID, status := .running,
            input := task.input, output := .vnil, error := "",
            startTime := now, endTime := none, attempt := task.attempts }
        let st1 := saveActivityState st activityState
        let startedEv : Event :=
          { id := startedEventID, workflowID := task.workflowID,
            type := .activityStarted, timestamp := now, sequenceNum := 0,
            data := [("activity_id", .vstr task.activityID),
                     ("activity_name", .vstr task.activityName)] }
        let st2 := (appendEvent st1 startedEv).1
        runActivityAttempt reg st2 task activityState now attemptEventID

/-- Model of `Worker.executeTask` (worker source): dispatch on the task type. -/
def executeTask (areg : ActivityRegistry) (st : Store) (task : Task)
    (now : Int) (startedEventID attemptEventID : String) : Store × TaskResult :=
  match task.type with
  | .activity => executeActivity areg st task now startedEventID attemptEventID
  | .workflow => (st, { initialResult task with error := "workflow tasks not yet implemented" })

/-- The worker's ack/nack choice. -/
inductive QueueDecision where
  | ackTask
  | nackTask (requeue : Bool)
deriving DecidableEq, Repr

/-- The ack/nack decision at the end of `Worker.pollOnce` (worker source):
`Ack` on success, otherwise `Nack` with `requeue := task.Attempts < 3`
(the bound 3 is a hardcoded constant, marked TODO in the source). -/
def pollOnceDecision (result : TaskResult) (task : Task) : QueueDecision :=
  if result.success then .ackTask else .nackTask (task.attempts < 3)

/-! ### Claim C3: completed activities are idempotent on re-delivery -/

/-- C3 amended: provided the task's activity name is registered, a
delivered activity task whose ActivityID already has a Completed Activity
State makes the worker skip execution entirely: the store is returned
unchanged — zero new events, no state write — the result is a success
carrying the cached Output, and `pollOnce` acks the task. (Without the
registration proviso the claim fails: the code checks the registry before
the cache, see the counterexample.) -/
theorem completedActivity_redelivery_idempotent
    (areg : ActivityRegistry) (st : Store) (task : Task) (now : Int)
    (sid aid : String) (reg : RegisteredActivity) (a : ActivityState)
    (hreg : lookupA task.activityName areg = some reg)
    (hstate : getActivityState st task.activityID = some a)
    (hdone : a.status = .completed) :
    executeActivity areg st task now sid aid
      = (st, { initialResult task with success := true, output := a.output })
    ∧ pollOnceDecision (executeActivity areg st task now sid aid).2 task = .ackTask := by
  have hexec : executeActivity areg st task now sid aid
      = (st, { initialResult task with success := true, output := a.output }) := by
    unfold executeActivity
    simp [hreg, hstate, hdone]
  refine ⟨hexec, ?_⟩
  rw [hexec]
  simp [pollOnceDecision]

def c3Activity : RegisteredActivity :=
  { info := { name := "echo-act", description := "", timeout := 30000000000,
              retryPolicy := none },
    exec := fun v => .ok v }

def c3Reg : ActivityRegistry := [("echo-act", c3Activity)]

def c3CachedState : ActivityState :=
  { activityID := "a-dup", activityName := "echo-act", workflowID := "wf-1",
    status := .completed, input := .vstr "hi", output := .vstr "hi",
    error := "", startTime := 0, endTime := some 1, attempt := 1 }

def c3Store : Store := saveActivityState emptyStore c3CachedState

def c3Task : Task :=
  { id := "t2", type := .activity, workflowID := "wf-1", activityID := "a-dup",
    activityName := "echo-act", input := .vstr "hi", attempts := 2 }

/-- Witness for C3 at a concrete duplicate delivery of task "a-dup". -/
theorem completedActivity_redelivery_idempotent_witness :
    executeActivity c3Reg c3Store c3Task 7 "e1" "e2"
      = (c3Store, { initialResult c3Task with success := true, output := .vstr "hi" })
    ∧ pollOnceDecision (executeActivity c3Reg c3Store c3Task 7 "e1" "e2").2 c3Task
        = .ackTask := by
  exact completedActivity_redelivery_idempotent c3Reg c3Store c3Task 7 "e1" "e2"
    c3Activity c3CachedState rfl rfl rfl

/-- C3 counterexample: with the cached Completed state present but the
activity name absent from the worker's registry, the registry lookup —
which the code performs before the idempotency check — fails the task: the
worker returns an "activity not found" failure instead of the cached
Output, and nacks with requeue instead of acking (the store is still left
unchanged). -/
theorem completed_redelivery_unregistered_counterexample :
    getActivityState c3Store c3Task.activityID = some c3CachedState
    ∧ c3CachedState.status = .completed
    ∧ (executeActivity [] c3Store c3Task 7 "e1" "e2").2.success = false
    ∧ (executeActivity [] c3Store c3Task 7 "e1" "e2").2.error = "activity not found"
    ∧ pollOnceDecision (executeActivity [] c3Store c3Task 7 "e1" "e2").2 c3Task
        = .nackTask true := by
  decide

/-! ### Claim C6: nack requeue bound ignores the retry policy -/

def c6Policy : RetryPolicy :=
  { maxAttempts := 5, initialInterval := 1000000000,
    maxInterval := 60000000000, nonRetryableErrors := [] }

def c6Entry : RegisteredActivity :=
  { info := { name := "flaky", description := "", timeout := 0,
              retryPolicy := some c6Policy },
    exec := fun _ => .error "transient" }

def c6Reg : ActivityRegistry := [("flaky", c6Entry)]

def c6Task : Task :=
  { id := "t6", type := .activity, workflowID := "wf-6", activityID := "a6",
    activityName := "flaky", input := .vnil, attempts := 3 }

/-- C6 counterexample: activity "flaky" is registered with a retry policy
whose MaxAttempts is 5, and the delivered task has Attempts = 3; the claim
predicts requeue = (3 < 5) = true, but the worker nacks with
requeue = false, because `pollOnce` compares against the hardcoded
constant 3 and never reads the retry policy. -/
theorem nack_ignores_retryPolicy_counterexample :
    (executeActivity c6Reg emptyStore c6Task 0 "e1" "e2").2.success = false
    ∧ c6Task.attempts < c6Policy.maxAttempts
    ∧ pollOnceDecision (executeActivity c6Reg emptyStore c6Task 0 "e1" "e2").2 c6Task
        = .nackTask false := by
  decide

/-- C6 amended: when execution of an activity task fails, the worker nacks
with `requeue = (task.Attempts < 3)`, the bound 3 being a hardcoded
constant (TODO in the source) — the registered activity's retry policy is
never consulted (the conclusion holds for every registered policy). -/
theorem nack_requeue_hardcoded_three (areg : ActivityRegistry) (st : Store)
    (task : Task) (now : Int) (sid aid : String)
    (reg : RegisteredActivity) (msg : String)
    (hreg : lookupA task.activityName areg = some reg)
    (hfail : reg.exec task.input = .error msg)
    (hfresh : ∀ a, getActivityState st task.activityID = some a → a.status ≠ .completed) :
    pollOnceDecision (executeActivity areg st task now sid aid).2 task
      = .nackTask (task.attempts < 3) := by
  unfold executeActivity
  cases hstate : getActivityState st task.activityID with
  | some a =>
      have hne := hfresh a hstate
      simp [hreg, hstate, hne, runActivityAttempt, hfail, pollOnceDecision]
  | none =>
      simp [hreg, hstate, runActivityAttempt, hfail, pollOnceDecision]

/-- Witness for the amended C6 at the concrete failing task with
Attempts = 3: the nack does not requeue. -/
theorem nack_requeue_hardcoded_three_witness :
    pollOnceDecision (executeActivity c6Reg emptyStore c6Task 0 "e1" "e2").2 c6Task
      = .nackTask ((3 : Int) < 3) := by
  exact nack_requeue_hardcoded_three c6Reg emptyStore c6Task 0 "e1" "e2"
    c6Entry "transient" rfl rfl (fun a h => nomatch h)

/-! ### Claim C7: no activity_retrying event on requeue -/

/-- How many `activity_retrying` events a workflow's log holds. -/
def retryingEventCount (st : Store) (wid : String) : Nat :=
  ((getEvents st wid).filter (fun e => e.type = .activityRetrying)).length

theorem retryingEventCount_appendEvent (st : Store) (e : Event) (wid : String)
    (h : e.type ≠ .activityRetrying) :
    retryingEventCount (appendEvent st e).1 wid = retryingEventCount st wid := by
  by_cases hw : wid = e.workflowID
  · subst hw
    unfold retryingEventCount
    rw [getEvents_appendEvent_self]
    simp [List.filter_append, h]
  · unfold retryingEventCount
    rw [getEvents_appendEvent_ne st e wid hw]

theorem retryingEventCount_save (st : Store) (a : ActivityState) (wid : String) :
    retryingEventCount (saveActivityState st a) wid = retryingEventCount st wid := rfl

theorem retryingEventCount_run (reg : RegisteredActivity) (st : Store) (task : Task)
    (a : ActivityState) (now : Int) (eid : String) (wid : String) :
    retryingEventCount (runActivityAttempt reg st task a now eid).1 wid
      = retryingEventCount st wid := by
  unfold runActivityAttempt
  cases hx : reg.exec task.input with
  | error msg =>
      simp only [hx]
      simp only [retryingEventCount_save]
      exact retryingEventCount_appendEvent st _ wid (by simp)
  | ok output =>
      simp only [hx]
      split
      · simp only [retryingEventCount_save]
        exact retryingEventCount_appendEvent st _ wid (by simp)
      · simp only [retryingEventCount_save]

def c7Task : Task :=
  { id := "t7", type := .activity, workflowID := "wf-6", activityID := "a7",
    activityName := "flaky", input := .vnil, attempts := 1 }

/-- C7 counterexample: a fresh failing task with Attempts = 1 is nacked
with requeue = true, yet the worker appends only `activity_started` and
`activity_failed` — no `activity_retrying` event ever enters the log. -/
theorem nack_requeue_no_retrying_counterexample :
    pollOnceDecision (executeActivity c6Reg emptyStore c7Task 0 "e1" "e2").2 c7Task
      = .nackTask true
    ∧ retryingEventCount (executeActivity c6Reg emptyStore c7Task 0 "e1" "e2").1 "wf-6" = 0
    ∧ (getEvents (executeActivity c6Reg emptyStore c7Task 0 "e1" "e2").1 "wf-6").map
        (fun e => e.type) = [.activityStarted, .activityFailed] := by
  decide

/-- C7 amended: nacking a failed task for requeue appends no
`activity_retrying` event: the worker never appends one under any input —
the event type is declared in the source but never emitted. -/
theorem worker_never_appends_retrying (areg : ActivityRegistry) (st : Store)
    (task : Task) (now : Int) (sid aid : String) (wid : String) :
    retryingEventCount (executeActivity areg st task now sid aid).1 wid
      = retryingEventCount st wid := by
  unfold executeActivity
  cases hreg : lookupA task.activityName areg with
  | none => rfl
  | some reg =>
      cases hstate : getActivityState st task.activityID with
      | some a =>
          by_cases hc : a.status = .completed
          · simp [hc]
          · simp only [hc, if_neg hc]
            exact retryingEventCount_run reg st task a now aid wid
      | none =>
          simp only []
          rw [retryingEventCount_run]
          rw [retryingEventCount_appendEvent _ _ _ (by simp)]
          rfl

/-! ### InMemoryQueue (queue source file)

A Go channel of capacity 100 per queue name is the ready list; the
`pending` map tracks inflight tasks with visibility deadlines. Times are
`Int` nanoseconds. -/

/-- Model of `pendingRecord`: an inflight task and its visibility deadline. -/
structure PendingRecord where
  task : Task
  deadline : Int
deriving DecidableEq, Repr

/-- Model of `queue.Options` (the fields claim-relevant operations read). -/
structure QueueOptions where
  visibilityTimeout : Int
  enableDLQ : Bool
deriving DecidableEq, Repr

/-- Model of `InMemoryQueue` state. -/
structure QueueState where
  queues : List (String × List Task)
  pending : List (String × List (String × PendingRecord))
  dlq : List (String × List Task)
  closed : Bool
  opts : QueueOptions
deriving DecidableEq, Repr

/-- Duration `30 * time.Second` in nanoseconds. -/
def thirtySeconds : Int := 30000000000

/-- Duration `200 * time.Millisecond` in nanoseconds. -/
def twoHundredMillis : Int := 200000000

/-- The ready channel's buffer capacity (`make(chan *Task, 100)`). -/
def channelCapacity : Nat := 100

/-- Model of `getOrCreateQueue`: `none` when closed; otherwise ensure the ready,
pending and dlq entries for the name exist. -/
def getOrCreateQueue (q : QueueState) (queueName : String) : Option QueueState :=
  if q.closed then none
  else
    match lookupA queueName q.queues with
    | some _ => some q
    | none =>
        some { q with
          queues := upsert queueName [] q.queues,
          pending := upsert queueName [] q.pending,
          dlq := match lookupA queueName q.dlq with
                 | some _ => q.dlq
                 | none => upsert queueName [] q.dlq }

/-- Model of `addPending`: record the task as inflight with its deadline — only if
the pending map already has an entry for the queue name. -/
def addPending (q : QueueState) (queueName : String) (t : Task) (deadline : Int) :
    QueueState :=
  match lookupA queueName q.pending with
  | none => q
  | some recs =>
      { q with pending := upsert queueName (upsert t.id ⟨t, deadline⟩ recs) q.pending }

/-- Result of `DequeueWithTimeout`: closed-queue error, timeout
(`nil` task with a "dequeue timeout" error), or a delivered task. -/
inductive DequeueResult where
  | queueClosed
  | timedOut
  | delivered (t : Task)
deriving DecidableEq, Repr

/-- Model of `DequeueWithTimeout` (queue source): take the next ready task if one is
available before the timeout elapses; increment its `Attempts`; record it
inflight with deadline `now + visibilityTimeout` (defaulting to 30 s when
the configured value is ≤ 0). An empty ready channel models the timeout
elapsing with no task. -/
def dequeueWithTimeout (q : QueueState) (queueName : String) (now : Int) :
    DequeueResult × QueueState :=
  match getOrCreateQueue q queueName with
  | none => (.queueClosed, q)
  | some q1 =>
    match (lookupA queueName q1.queues).getD [] with
    | [] => (.timedOut, q1)
    | t :: rest =>
        let t' := { t with attempts := t.attempts + 1 }
        let vis := if q1.opts.visibilityTimeout ≤ 0 then thirtySeconds
                   else q1.opts.visibilityTimeout
        let q2 := { q1 with queues := upsert queueName rest q1.queues }
        (.delivered t', addPending q2 queueName t' (now + vis))

/-- Model of `Ack`: remove the task from the inflight set; error if absent. -/
def ackTask (q : QueueState) (queueName taskID : String) :
    QueueState × Except String Unit :=
  match lookupA queueName q.pending with
  | none => (q, .error "task not found in pending")
  | some recs =>
      match lookupA taskID recs with
      | none => (q, .error "task not found in pending")
      | some _ =>
          ({ q with pending := upsert queueName (recs.filter (fun r => r.1 ≠ taskID)) q.pending },
            .ok ())

/-- One queue's slice of `scanOnce`: move each inflight record whose
deadline has passed (`now.After(deadline)`, i.e. `deadline < now`) back to
the ready list if the channel has room, else push its deadline forward by
200 ms; visible records are kept untouched. -/
def scanRecs (now : Int) (ready : List Task) :
    List (String × PendingRecord) → List Task × List (String × PendingRecord)
  | [] => (ready, [])
  | (tid, rec) :: rest =>
      if rec.deadline < now then
        if ready.length < channelCapacity then
          scanRecs now (ready ++ [rec.task]) rest
        else
          let (r', p') := scanRecs now ready rest
          (r', (tid, { rec with deadline := now + twoHundredMillis }) :: p')
      else
        let (r', p') := scanRecs now ready rest
        (r', (tid, rec) :: p')

/-- Model of `scanOnce` applied to one named queue of the state. -/
def scanQueue (q : QueueState) (queueName : String) (now : Int) : QueueState :=
  match lookupA queueName q.pending with
  | none => q
  | some recs =>
      let ready := (lookupA queueName q.queues).getD []
      let (ready', recs') := scanRecs now ready recs
      { q with queues := upsert queueName ready' q.queues,
               pending := upsert queueName recs' q.pending }

/-! ### Claim C8: dequeue/visibility contract -/

theorem scanRecs_keeps_visible (now : Int) (ready : List Task)
    (recs : List (String × PendingRecord)) (tid : String) (rec : PendingRecord)
    (hmem : (tid, rec) ∈ recs) (hvis : now ≤ rec.deadline) :
    (tid, rec) ∈ (scanRecs now ready recs).2 := by
  induction recs generalizing ready with
  | nil => cases hmem
  | cons hd tl ih =>
      obtain ⟨tid0, rec0⟩ := hd
      rcases List.mem_cons.1 hmem with heq | hmem'
      · cases heq
        simp only [scanRecs]
        rw [if_neg (by omega)]
        exact List.mem_cons_self _ _
      · simp only [scanRecs]
        by_cases hd1 : rec0.deadline < now
        · rw [if_pos hd1]
          by_cases hd2 : ready.length < channelCapacity
          · rw [if_pos hd2]
            exact ih (ready ++ [rec0.task]) hmem'
          · rw [if_neg hd2]
            exact List.mem_cons_of_mem _ (ih ready hmem')
        · rw [if_neg hd1]
          exact List.mem_cons_of_mem _ (ih ready hmem')

theorem scanRecs_ready_sources (now : Int) (ready : List Task)
    (recs : List (String × PendingRecord)) :
    ∀ t ∈ (scanRecs now ready recs).1,
      t ∈ ready ∨ ∃ p ∈ recs, p.2.deadline < now ∧ t = p.2.task := by
  induction recs generalizing ready with
  | nil =>
      intro t ht
      exact Or.inl (by simpa [scanRecs] using ht)
  | cons hd tl ih =>
      intro t ht
      obtain ⟨tid0, rec0⟩ := hd
      simp only [scanRecs] at ht
      by_cases hd1 : rec0.deadline < now
      · rw [if_pos hd1] at ht
        by_cases hd2 : ready.length < channelCapacity
        · rw [if_pos hd2] at ht
          rcases ih (ready ++ [rec0.task]) t ht with hmem | ⟨p, hp, hlt, rfl⟩
          · rcases List.mem_append.1 hmem with h | h
            · exact Or.inl h
            · refine Or.inr ⟨(tid0, rec0), List.mem_cons_self _ _, hd1, ?_⟩
              simpa using List.mem_singleton.1 h
          · exact Or.inr ⟨p, List.mem_cons_of_mem _ hp, hlt, rfl⟩
        · rw [if_neg hd2] at ht
          rcases ih ready t ht with hmem | ⟨p, hp, hlt, rfl⟩
          · exact Or.inl hmem
          · exact Or.inr ⟨p, List.mem_cons_of_mem _ hp, hlt, rfl⟩
      · rw [if_neg hd1] at ht
        rcases ih ready t ht with hmem | ⟨p, hp, hlt, rfl⟩
        · exact Or.inl hmem
        · exact Or.inr ⟨p, List.mem_cons_of_mem _ hp, hlt, rfl⟩

/-- C8: `DequeueWithTimeout` returns the timeout result (nil task) when no
ready task is available; when a task is ready it is delivered with
`Attempts` incremented and recorded inflight under deadline
`now + visibilityTimeout` (the configured positive value); and the
redelivery scanner keeps every still-visible inflight record untouched —
only records whose deadline has passed can be moved back to the ready
list. -/
theorem dequeue_visibility_contract :
    (∀ (q : QueueState) (queueName : String) (now : Int) (q1 : QueueState),
        getOrCreateQueue q queueName = some q1 →
        (lookupA queueName q1.queues).getD [] = [] →
        (dequeueWithTimeout q queueName now).1 = .timedOut)
    ∧ (∀ (q : QueueState) (queueName : String) (now : Int)
         (t : Task) (rest : List Task) (recs : List (String × PendingRecord)),
        q.closed = false →
        lookupA queueName q.queues = some (t :: rest) →
        lookupA queueName q.pending = some recs →
        0 < q.opts.visibilityTimeout →
        (dequeueWithTimeout q queueName now).1
            = .delivered { t with attempts := t.attempts + 1 }
        ∧ lookupA queueName (dequeueWithTimeout q queueName now).2.queues = some rest
        ∧ lookupA t.id ((lookupA queueName (dequeueWithTimeout q queueName now).2.pending).getD [])
            = some ⟨{ t with attempts := t.attempts + 1 }, now + q.opts.visibilityTimeout⟩)
    ∧ (∀ (q : QueueState) (queueName : String) (now : Int)
         (recs : List (String × PendingRecord)) (tid : String) (rec : PendingRecord),
        lookupA queueName q.pending = some recs →
        (tid, rec) ∈ recs →
        now ≤ rec.deadline →
        (tid, rec) ∈ (lookupA queueName (scanQueue q queueName now).pending).getD []
        ∧ (∀ t ∈ (lookupA queueName (scanQueue q queueName now).queues).getD [],
            t ∈ (lookupA queueName q.queues).getD []
            ∨ ∃ p ∈ recs, p.2.deadline < now ∧ t = p.2.task)) := by
  refine ⟨?_, ?_, ?_⟩
  · intro q queueName now q1 hgoc hempty
    unfold dequeueWithTimeout
    rw [hgoc]
    simp [hempty]
  · intro q queueName now t rest recs hclosed hq hp hvis
    have hnotle : ¬ q.opts.visibilityTimeout ≤ 0 := by omega
    unfold dequeueWithTimeout getOrCreateQueue addPending
    simp [hclosed, hq, hp, hnotle, lookupA_upsert_self]
  · intro q queueName now recs tid rec hp hmem hvis
    unfold scanQueue
    rw [hp]
    constructor
    · simp only [lookupA_upsert_self, Option.getD_some]
      exact scanRecs_keeps_visible now _ recs tid rec hmem hvis
    · intro t ht
      simp only [lookupA_upsert_self, Option.getD_some] at ht
      exact scanRecs_ready_sources now _ recs t ht

def c8Task : Task :=
  { id := "t8", type := .activity, workflowID := "wf-8", activityID := "a8",
    activityName := "act", input := .vnil, attempts := 0 }

def c8Queue : QueueState :=
  { queues := [("default", [c8Task])], pending := [("default", [])],
    dlq := [("default", [])], closed := false,
    opts := { visibilityTimeout := 1000, enableDLQ := false } }

def c8Inflight : QueueState :=
  { queues := [("default", [])],
    pending := [("default", [("t8", ⟨c8Task, 500⟩)])],
    dlq := [("default", [])], closed := false,
    opts := { visibilityTimeout := 1000, enableDLQ := false } }

/-- Witness for C8 at concrete inputs: a dequeue at time 50 delivers the
task with Attempts 1 and deadline 1050; the scanner at time 400 keeps the
still-visible record (deadline 500) inflight. -/
theorem dequeue_visibility_contract_witness :
    ((dequeueWithTimeout c8Queue "default" 50).1
        = .delivered { c8Task with attempts := 1 }
      ∧ lookupA "default" (dequeueWithTimeout c8Queue "default" 50).2.queues = some []
      ∧ lookupA "t8"
          ((lookupA "default" (dequeueWithTimeout c8Queue "default" 50).2.pending).getD [])
          = some ⟨{ c8Task with attempts := 1 }, 1050⟩)
    ∧ ("t8", (⟨c8Task, 500⟩ : PendingRecord))
        ∈ (lookupA "default" (scanQueue c8Inflight "default" 400).pending).getD [] := by
  constructor
  · have h := dequeue_visibility_contract.2.1 c8Queue "default" 50 c8Task [] []
      rfl rfl rfl (by decide)
    exact ⟨h.1, h.2.1, h.2.2⟩
  · exact (dequeue_visibility_contract.2.2 c8Inflight "default" 400
      [("t8", ⟨c8Task, 500⟩)] "t8" ⟨c8Task, 500⟩ rfl (by decide) (by decide)).1

/-! ### SSE stream (server/agenthttp/sse.go)

`StreamEvents` is a poll loop: each tick it fetches
`getSince(workflowID, since)`, writes each event as an SSE block, advances
`since`, and after writing a terminal workflow event writes the done block
and returns. A run of the loop is modelled as the sequence of log
snapshots the successive polls observe. Heartbeat comments carry no event
id and are omitted from the write trace. -/

/-- The terminal-type test in `StreamEvents`. -/
def isTerminalEventType (t : EventType) : Bool :=
  t = .workflowCompleted || t = .workflowFailed || t = .workflowCanceled

/-- One SSE block: an event write (id line = SequenceNum, event line =
type, data line = event JSON) or the final done block (event done, data =
empty JSON object). -/
inductive SSEWrite where
  | ev (id : Int) (etype : EventType)
  | doneMarker
deriving DecidableEq, Repr

/-- The body of the per-poll `for` loop in `StreamEvents`: write each
event, track the max `since`, and stop right after a terminal event with
the done block. Returns (writes, new since, returned?). -/
def processEvs : List Event → Int → List SSEWrite × Int × Bool
  | [], since => ([], since, false)
  | e :: rest, since =>
      let since' := if since < e.sequenceNum then e.sequenceNum else since
      if isTerminalEventType e.type then
        ([SSEWrite.ev e.sequenceNum e.type, .doneMarker], since', true)
      else
        (SSEWrite.ev e.sequenceNum e.type :: (processEvs rest since').1,
          (processEvs rest since').2.1, (processEvs rest since').2.2)

/-- One poll tick: fetch the events past `since` (the store's
`GetEventsSince` filter) from the current log snapshot and process them. -/
def ssePoll (log : List Event) (since : Int) : List SSEWrite × Int × Bool :=
  processEvs (log.filter (fun e => since < e.sequenceNum)) since

/-- The whole stream over the log snapshots the successive polls observe;
the stream returns as soon as a poll wrote a terminal event. -/
def sseStream : List (List Event) → Int → List SSEWrite
  | [], _ => []
  | log :: rest, since =>
      if (ssePoll log since).2.2 then (ssePoll log since).1
      else (ssePoll log since).1 ++ sseStream rest (ssePoll log since).2.1

/-- Checks that every terminal event write is immediately followed by the
done block which ends the stream, and that the done block never appears
elsewhere. -/
def doneAfterTerminal : List SSEWrite → Bool
  | [] => true
  | .doneMarker :: rest => rest.isEmpty
  | .ev _ t :: rest =>
      if isTerminalEventType t then decide (rest = [SSEWrite.doneMarker])
      else doneAfterTerminal rest

/-- Holds when `l₁` extends to `l₂`: the log is append-only, so every earlier
snapshot is an initial segment of a later one. -/
def extendsTo {α : Type} (l₁ l₂ : List α) : Prop := ∃ t, l₁ ++ t = l₂

theorem extendsTo_filter {α : Type} (p : α → Bool) {l₁ l₂ : List α}
    (h : extendsTo l₁ l₂) : extendsTo (l₁.filter p) (l₂.filter p) := by
  obtain ⟨t, rfl⟩ := h
  exact ⟨t.filter p, (List.filter_append _ _).symm⟩

theorem extendsTo_head {α : Type} {l₁ l₂ : List α} (h : extendsTo l₁ l₂)
    (hne : l₁ ≠ []) : l₁.head? = l₂.head? := by
  obtain ⟨t, rfl⟩ := h
  cases l₁ with
  | nil => exact absurd rfl hne
  | cons a l => rfl

theorem processEvs_cons_head (e : Event) (es : List Event) (s : Int) :
    (processEvs (e :: es) s).1.head? = some (.ev e.sequenceNum e.type) := by
  unfold processEvs
  split <;> split <;> rfl

theorem processEvs_nil (s : Int) : processEvs [] s = ([], s, false) := rfl

/-- No terminal event write and no done block among the writes. -/
def noTerminalWrites (ws : List SSEWrite) : Prop :=
  ∀ w ∈ ws, (∀ i t, w = .ev i t → isTerminalEventType t = false) ∧ w ≠ .doneMarker

theorem doneAfterTerminal_append {ws tail : List SSEWrite}
    (h : noTerminalWrites ws) :
    doneAfterTerminal (ws ++ tail) = doneAfterTerminal tail := by
  induction ws with
  | nil => rfl
  | cons w ws' ih =>
      have hw := h w (List.mem_cons_self _ _)
      have hrest : noTerminalWrites ws' := fun x hx => h x (List.mem_cons_of_mem _ hx)
      cases w with
      | doneMarker => exact absurd rfl hw.2
      | ev i t =>
          have ht : isTerminalEventType t = false := hw.1 i t rfl
          simp only [List.cons_append, doneAfterTerminal]
          rw [if_neg (by simp [ht])]
          exact ih hrest

theorem processEvs_false_noTerminal (evs : List Event) (s : Int)
    (h : (processEvs evs s).2.2 = false) : noTerminalWrites (processEvs evs s).1 := by
  induction evs generalizing s with
  | nil =>
      intro w hw
      cases hw
  | cons e rest ih =>
      simp only [processEvs] at h ⊢
      by_cases ht : isTerminalEventType e.type = true
      · rw [if_pos ht] at h
        simp at h
      · rw [if_neg ht] at h ⊢
        intro w hw
        rcases List.mem_cons.1 hw with heq | hw'
        · subst heq
          exact ⟨fun i t heq2 => by cases heq2; simpa using ht, by simp⟩
        · exact ih _ h w hw'

theorem processEvs_true_done (evs : List Event) (s : Int)
    (h : (processEvs evs s).2.2 = true) :
    doneAfterTerminal (processEvs evs s).1 = true := by
  induction evs generalizing s with
  | nil => simp [processEvs] at h
  | cons e rest ih =>
      simp only [processEvs] at h ⊢
      by_cases ht : isTerminalEventType e.type = true
      · rw [if_pos ht]
        simp [doneAfterTerminal, ht]
      · rw [if_neg ht] at h ⊢
        simp only [doneAfterTerminal]
        rw [if_neg (by simp [ht])]
        exact ih _ h

theorem sseStream_done_always (snaps : List (List Event)) (since : Int) :
    doneAfterTerminal (sseStream snaps since) = true := by
  induction snaps generalizing since with
  | nil => rfl
  | cons log rest ih =>
      simp only [sseStream, ssePoll]
      by_cases hd :
        (processEvs (log.filter (fun e => since < e.sequenceNum)) since).2.2 = true
      · rw [if_pos hd]
        exact processEvs_true_done _ _ hd
      · rw [if_neg hd]
        rw [doneAfterTerminal_append (processEvs_false_noTerminal _ _ (by simpa using hd))]
        exact ih _

theorem head_filter_min (final : List Event) (since : Int)
    (hsorted : (seqNums final).Pairwise (· < ·))
    (e : Event)
    (he : (final.filter (fun x => since < x.sequenceNum)).head? = some e) :
    e.sequenceNum ∈ seqNums final ∧ since < e.sequenceNum
    ∧ ∀ j ∈ seqNums final, since < j → e.sequenceNum ≤ j := by
  induction final with
  | nil => simp at he
  | cons f rest ih =>
      rw [show seqNums (f :: rest) = f.sequenceNum :: seqNums rest from rfl] at hsorted ⊢
      have hsorted' := List.pairwise_cons.1 hsorted
      by_cases hf : since < f.sequenceNum
      · rw [List.filter_cons_of_pos (by simpa using hf)] at he
        rw [List.head?_cons, Option.some.injEq] at he
        obtain rfl : f = e := he
        refine ⟨List.mem_cons_self _ _, hf, ?_⟩
        intro j hj hsj
        rcases List.mem_cons.1 hj with hj0 | hj1
        · omega
        · exact le_of_lt (hsorted'.1 j hj1)
      · rw [List.filter_cons_of_neg (by simpa using hf)] at he
        have hr := ih hsorted'.2 he
        refine ⟨List.mem_cons_of_mem _ hr.1, hr.2.1, ?_⟩
        intro j hj hsj
        rcases List.mem_cons.1 hj with hj0 | hj1
        · omega
        · exact hr.2.2 j hj1 hsj

theorem sseStream_first_write (snaps : List (List Event)) (final : List Event)
    (since : Int) (hpre : ∀ l ∈ snaps, extendsTo l final)
    (hsorted : (seqNums final).Pairwise (· < ·)) :
    ∀ w, (sseStream snaps since).head? = some w →
      ∃ i ty, w = .ev i ty ∧ i ∈ seqNums final ∧ since < i
        ∧ ∀ j ∈ seqNums final, since < j → i ≤ j := by
  induction snaps generalizing since with
  | nil =>
      intro w hw
      simp [sseStream] at hw
  | cons log rest ih =>
      intro w hw
      simp only [sseStream, ssePoll] at hw
      cases hfil : log.filter (fun e => since < e.sequenceNum) with
      | nil =>
          rw [hfil, processEvs_nil] at hw
          rw [if_neg (by simp)] at hw
          rw [List.nil_append] at hw
          exact ih since (fun l hl => hpre l (List.mem_cons_of_mem _ hl)) w hw
      | cons e es =>
          rw [hfil] at hw
          have hws := processEvs_cons_head e es since
          cases hcons : (processEvs (e :: es) since).1 with
          | nil => rw [hcons] at hws; cases hws
          | cons w0 ws' =>
              rw [hcons] at hws
              rw [List.head?_cons, Option.some.injEq] at hws
              have hweq : w = SSEWrite.ev e.sequenceNum e.type := by
                by_cases hd : (processEvs (e :: es) since).2.2 = true
                · rw [if_pos hd, hcons, List.head?_cons, Option.some.injEq] at hw
                  rw [← hw, hws]
                · rw [if_neg hd, hcons, List.cons_append, List.head?_cons,
                    Option.some.injEq] at hw
                  rw [← hw, hws]
              have hfinhead :
                  (final.filter (fun x => since < x.sequenceNum)).head? = some e := by
                have hext := extendsTo_filter (fun x : Event => decide (since < x.sequenceNum))
                  (hpre log (List.mem_cons_self _ _))
                have hne : log.filter (fun e => since < e.sequenceNum) ≠ [] := by
                  rw [hfil]; exact List.cons_ne_nil _ _
                have := extendsTo_head hext hne
                rw [hfil] at this
                exact this.symm ▸ rfl
              have hmin := head_filter_min final since hsorted e hfinhead
              exact ⟨e.sequenceNum, e.type, hweq, hmin.1, hmin.2.1, hmin.2.2⟩

/-- C9: the poll step consumes exactly the store's `GetEventsSince` events;
over any run whose snapshots are initial segments of the (strictly
sorted-by-sequence) final log, the stream's first written event id is the
smallest SequenceNum greater than the resume point `since`; and whenever a
terminal workflow event is written it is immediately followed by the done
block, which ends the stream. -/
theorem sse_stream_contract :
    (∀ (st : Store) (wid : String) (since : Int),
        ssePoll (getEvents st wid) since = processEvs (getEventsSince st wid since) since)
    ∧ (∀ (snaps : List (List Event)) (final : List Event) (since : Int),
        (∀ l ∈ snaps, extendsTo l final) →
        (seqNums final).Pairwise (· < ·) →
        ∀ w, (sseStream snaps since).head? = some w →
          ∃ i ty, w = .ev i ty ∧ i ∈ seqNums final ∧ since < i
            ∧ ∀ j ∈ seqNums final, since < j → i ≤ j)
    ∧ (∀ (snaps : List (List Event)) (since : Int),
        doneAfterTerminal (sseStream snaps since) = true) :=
  ⟨fun _ _ _ => rfl, sseStream_first_write, sseStream_done_always⟩

def c9E1 : Event :=
  { id := "e1", workflowID := "wf-9", type := .workflowStarted, timestamp := 0,
    sequenceNum := 1, data := [] }

def c9E2 : Event :=
  { id := "e2", workflowID := "wf-9", type := .activityStarted, timestamp := 1,
    sequenceNum := 2, data := [] }

def c9E3 : Event :=
  { id := "e3", workflowID := "wf-9", type := .workflowCompleted, timestamp := 2,
    sequenceNum := 3, data := [] }

def c9Final : List Event := [c9E1, c9E2, c9E3]

def c9Snaps : List (List Event) := [[c9E1], c9Final]

/-- Witness for C9: resuming at `since = 1` over a run that first sees only
event 1 and then the full log, the first written event has id 2 — the
smallest sequence number greater than 1. -/
theorem sse_stream_contract_witness :
    ∃ i ty, SSEWrite.ev 2 EventType.activityStarted = .ev i ty
      ∧ i ∈ seqNums c9Final ∧ (1 : Int) < i
      ∧ ∀ j ∈ seqNums c9Final, (1 : Int) < j → i ≤ j := by
  exact sse_stream_contract.2.1 c9Snaps c9Final 1
    (by
      intro l hl
      rcases List.mem_cons.1 hl with h1 | hl2
      · exact h1 ▸ ⟨[c9E2, c9E3], rfl⟩
      · rcases List.mem_cons.1 hl2 with h2 | hl3
        · exact h2 ▸ ⟨[], List.append_nil _⟩
        · cases hl3)
    (by decide)
    (SSEWrite.ev 2 EventType.activityStarted)
    (by decide)

/-! ### Future Get (engine/context.go) -/

/-- The dynamic type of the `valuePtr` argument of `futureImpl.Get`: the
nil interface, a pointer to `interface` (the one type its switch handles),
or a pointer of any other dynamic type, carrying that type's name. -/
inductive GoPtr where
  | nilPtr
  | ptrToInterface
  | ptrOther (typeName : String)
deriving DecidableEq, Repr

/-- Outcome of a `Get` call once the ready branch of its select is taken:
an error return, a normal return (with the value assigned through the
pointer when one was supplied), or a runtime panic. -/
inductive GetOutcome where
  | ok (assigned : Option GoVal)
  | errReturn (msg : String)
  | panicked
deriving DecidableEq, Repr

/-- A resolved `futureImpl`: the `value` and `err` fields as set by
`setValue` or `setError`, with the ready channel closed. -/
structure ResolvedFuture where
  value : GoVal
  err : Option String
deriving DecidableEq, Repr

/-- Model of `futureImpl.Get` (engine/context.go) for a resolved future whose ready
branch wins the select: return the stored error if any; otherwise, for a
non-nil pointer, assign through it — the switch handles the
pointer-to-interface case, and its default case performs the unchecked
type assertion to pointer-to-interface, which panics for every other
dynamic pointer type. -/
def futureGet (f : ResolvedFuture) (valuePtr : GoPtr) : GetOutcome :=
  match f.err with
  | some msg => .errReturn msg
  | none =>
    match valuePtr with
    | .nilPtr => .ok none
    | .ptrToInterface => .ok (some f.value)
    | .ptrOther _ => .panicked

/-- C10: on a future resolved with a value (no stored error), `Get` with a
non-nil pointer of any dynamic type other than pointer-to-interface panics
from the unchecked type assertion rather than returning an error; it
returns normally exactly when the pointer is nil or a
pointer-to-interface. -/
theorem futureGet_panics_on_typed_pointer :
    (∀ (f : ResolvedFuture) (ty : String), f.err = none →
        futureGet f (.ptrOther ty) = .panicked)
    ∧ (∀ (f : ResolvedFuture) (p : GoPtr), f.err = none →
        ((∃ a, futureGet f p = .ok a) ↔ p = .nilPtr ∨ p = .ptrToInterface)) := by
  constructor
  · intro f ty h
    simp [futureGet, h]
  · intro f p h
    constructor
    · rintro ⟨a, ha⟩
      cases p <;> simp_all [futureGet]
    · rintro (rfl | rfl)
      · exact ⟨none, by simp [futureGet, h]⟩
      · exact ⟨some f.value, by simp [futureGet, h]⟩

/-- Witness for C10: a future resolved with the value "v"; `Get` through a
pointer-to-string panics. -/
theorem futureGet_panics_on_typed_pointer_witness :
    futureGet ⟨.vstr "v", none⟩ (.ptrOther "*string") = .panicked := by
  exact futureGet_panics_on_typed_pointer.1 ⟨.vstr "v", none⟩ "*string" rfl

end Marathon
